import Mathlib

/-!
Verification of the reimplementable core of the `salmonberry` repository:
the seasonal date-window builder (`_month_limited_date_ranges`), the result
ranker (the sort step of `query_sentinel_products`), and the download
orchestrator (`download_products`), as implemented in the two copies
`sentinel_query.py` (namespace `SQ`) and `scripts/sentinel_query.py`
(namespace `Scripts`).

The model embeds the relevant behaviour of the external collaborators the
code relies on:
* Python `str` comparison (lexicographic on code points; comparing a string
  with `None` raises `TypeError`),
* `datetime.date(y, m, d)` (raises `ValueError` for years outside 1..9999,
  months outside 1..12, or days outside the month's length) and its
  `isoformat` (zero-padded `YYYY-MM-DD`),
* `list.sort(key=..., reverse=True)` (a stable sort, descending on the key;
  any comparison involving `None` raises, and with two or more elements every
  element takes part in at least one comparison),
* the catalog API (`api.query` / `api.download`), abstracted as oracle
  functions supplied by the caller.

Fallible Python code is embedded as `Except String` values, where `.error`
models a raised exception.
-/

instance {ε α : Type} [DecidableEq ε] [DecidableEq α] : DecidableEq (Except ε α) := fun x y =>
  match x, y with
  | .ok a, .ok b =>
    if h : a = b then isTrue (congrArg Except.ok h)
    else isFalse (fun hc => h (Except.ok.inj hc))
  | .error e, .error f =>
    if h : e = f then isTrue (congrArg Except.error h)
    else isFalse (fun hc => h (Except.error.inj hc))
  | .ok _, .error _ => isFalse (fun hc => Except.noConfusion hc)
  | .error _, .ok _ => isFalse (fun hc => Except.noConfusion hc)

/-- Lexicographic strict order on lists of naturals: the order Python uses to
compare strings, applied to their code-point sequences.  A proper prefix is
smaller; at the first differing position the smaller code point decides. -/
def ltN : List Nat → List Nat → Bool
  | [], [] => false
  | [], _ :: _ => true
  | _ :: _, [] => false
  | a :: as, b :: bs => if a = b then ltN as bs else decide (a < b)

/-- Code-point sequence of a string (Python compares strings by code point). -/
def codes (s : String) : List Nat := s.data.map Char.toNat

/-- Model of Python `a < b` on strings. -/
def pyStrLt (a b : String) : Bool := ltN (codes a) (codes b)

/-- Model of Python `a <= b` on strings (total order: `¬ b < a`). -/
def pyStrLe (a b : String) : Bool := !(pyStrLt b a)

/-- Model of Python `datetime.date`: a year/month/day triple. -/
structure Date where
  year : Int
  month : Int
  day : Int
deriving DecidableEq

/-- Python's Gregorian leap-year rule (`calendar.isleap`). -/
def isLeapYear (y : Int) : Bool := y % 4 == 0 && (y % 100 != 0 || y % 400 == 0)

/-- Number of days in month `m` of year `y`, as `datetime` computes it. -/
def daysInMonth (y m : Int) : Int :=
  if m = 2 then (if isLeapYear y then 29 else 28)
  else if m = 4 ∨ m = 6 ∨ m = 9 ∨ m = 11 then 30
  else 31

/-- Model of the `datetime.date(y, m, d)` constructor: validates the year
(1..9999), then the month (1..12), then the day (1..days-in-month), raising
`ValueError` (modelled as `.error`) otherwise. -/
def mkDate (y m d : Int) : Except String Date :=
  if y < 1 ∨ 9999 < y then .error "year out of range"
  else if m < 1 ∨ 12 < m then .error "month must be in 1..12"
  else if d < 1 ∨ daysInMonth y m < d then .error "day is out of range for month"
  else .ok ⟨y, m, d⟩

/-- Left-pad the decimal representation of `n` with zeros to width `w`. -/
def padZeros (w n : Nat) : String :=
  (List.replicate (w - (toString n).length) '0').asString ++ toString n

/-- Model of `datetime.date.isoformat`: zero-padded `YYYY-MM-DD`. -/
def Date.isoformat (d : Date) : String :=
  padZeros 4 d.year.toNat ++ "-" ++ padZeros 2 d.month.toNat ++ "-" ++ padZeros 2 d.day.toNat

/-- Model of Python `range(a, b)` over integers, as the list `[a, a+1, ..., b-1]`. -/
def intRange (a b : Int) : List Int :=
  (List.range (b - a).toNat).map (fun (i : Nat) => a + (i : Int))

/-- The fields of a sentinelsat product-metadata record that the core reads or
writes: the `"_uid"` key (absent until `query_sentinel_products` sets it), the
`"beginposition"` and `"ingestiondate"` timestamps, and the `"title"`.  A
field holding `none` models an absent key / a `None` value; the record is
opaque beyond these fields. -/
structure ProductMeta where
  uid : Option String
  beginposition : Option String
  ingestiondate : Option String
  title : Option String
deriving DecidableEq

/-- Model of Python `a or b` for optional strings: `a` if it is truthy
(present and non-empty), otherwise `b`. -/
def pyOrStr (a b : Option String) : Option String :=
  match a with
  | some s => if s = "" then b else some s
  | none => b

/-- The sort key of line `results.sort(key=lambda m: m.get("beginposition")
or m.get("ingestiondate"), reverse=True)`. -/
def sortKeyOf (m : ProductMeta) : Option String := pyOrStr m.beginposition m.ingestiondate

/-- The sort key with `none` defaulted to `""`; only used on entries whose
key is present (the default is never reached there). -/
def keyD (m : ProductMeta) : String := (sortKeyOf m).getD ""

/-- The ordering relation realised by `sort(key=..., reverse=True)`:
`a` precedes (or ties with) `b` when `a`'s key is at least `b`'s. -/
def rankRel (a b : ProductMeta) : Prop := pyStrLe (keyD b) (keyD a) = true

instance : DecidableRel rankRel :=
  fun a b => inferInstanceAs (Decidable (pyStrLe (keyD b) (keyD a) = true))

/-- The Result Ranker: model of `results.sort(key=lambda m:
m.get("beginposition") or m.get("ingestiondate"), reverse=True)`.

Python's `list.sort` is a stable sort; with `reverse=True` it orders by key
descending, ties keeping their original relative order — behaviour realised
here by the stable `List.insertionSort` under `rankRel`.  With fewer than two
elements no comparison is performed; with two or more elements every element
takes part in at least one comparison, so a single `None` key (an entry whose
`beginposition` and `ingestiondate` are both missing/falsy) raises
`TypeError`, modelled as `.error`. -/
def rankEntries (l : List ProductMeta) : Except String (List ProductMeta) :=
  if l.length ≤ 1 then .ok l
  else if l.all (fun m => (sortKeyOf m).isSome) then .ok (l.insertionSort rankRel)
  else .error "TypeError: unorderable types: NoneType and str"

/-- Value returned by a successful `api.download` call: either a dict (whose
`"path"` key may be absent) or some other value used as the path itself. -/
inductive DownloadRes where
  | dict (path : Option String)
  | raw (value : String)
deriving DecidableEq

/-- `local_path = res.get("path") if isinstance(res, dict) else res`. -/
def localPathOf : DownloadRes → Option String
  | .dict p => p
  | .raw v => some v

/-- Log records emitted by `download_products`: the warning for a missing
`"_uid"`, the info line before each download attempt, and the exception log
for a failed download. -/
inductive LogEvent where
  | warnMissingUid (meta : ProductMeta)
  | infoDownloading (title : Option String) (uid : String)
  | errFailedDownload (uid : String)
deriving DecidableEq

/-- `True` exactly when the entry's `"_uid"` value is truthy (present and
non-empty), i.e. when `if not uid:` does not skip it. -/
def hasNonEmptyUid (m : ProductMeta) : Bool :=
  match m.uid with
  | some u => u != ""
  | none => false

namespace SQ

/-!  Embedding of `src/sentinel_query.py`.  -/

/-- The loop body of `_month_limited_date_ranges` (lines 90–96): for each year
build `date(y, months[0], 1)` and `date(y, months[1], 31)` and collect their
ISO strings; a raised `ValueError` aborts the whole call. -/
def buildRanges (m1 m2 : Int) : List Int → Except String (List (String × String))
  | [] => .ok []
  | y :: ys =>
    match mkDate y m1 1 with
    | .error e => .error e
    | .ok s =>
      match mkDate y m2 31 with
      | .error e => .error e
      | .ok en =>
        match buildRanges m1 m2 ys with
        | .error e => .error e
        | .ok rest => .ok ((s.isoformat, en.isoformat) :: rest)

/-- `_month_limited_date_ranges(start_year, end_year, months)`
(src/sentinel_query.py lines 83–96). -/
def _month_limited_date_ranges (start_year end_year : Int) (months : Int × Int) :
    Except String (List (String × String)) :=
  buildRanges months.1 months.2 (intRange start_year (end_year + 1))

/-- The aggregation loop of `query_sentinel_products` (lines 126–138): one
`api.query` call per date range (abstracted as the oracle `q`), and for each
returned `(uid, meta)` pair the record with its `"_uid"` key set is appended. -/
def collectResults (q : String × String → List (String × ProductMeta)) :
    List (String × String) → List ProductMeta
  | [] => []
  | r :: rs => (q r).map (fun p => { p.2 with uid := some p.1 }) ++ collectResults q rs

/-- `query_sentinel_products` (src/sentinel_query.py lines 103–143): build the
May–August date ranges (`months=(5, 8)` is hard-coded at line 123), issue one
query per range, tag each record with its `"_uid"`, and sort by sensing date
descending.  Credentials, WKT area, cloud ceiling, product type and platform
are forwarded to the catalog verbatim and are absorbed into the oracle `q`. -/
def query_sentinel_products (q : String × String → List (String × ProductMeta))
    (start_year end_year : Int) : Except String (List ProductMeta) :=
  match _month_limited_date_ranges start_year end_year (5, 8) with
  | .error e => .error e
  | .ok drs => rankEntries (collectResults q drs)

/-- `download_products` (src/sentinel_query.py lines 146–176): for each record,
skip (with a warning) when `"_uid"` is missing or empty; otherwise attempt the
download (oracle `dl`), appending the resulting local path on success and
logging-and-continuing on failure.  Returns the collected paths and the log. -/
def download_products (dl : String → Except String DownloadRes) :
    List ProductMeta → List (Option String) × List LogEvent
  | [] => ([], [])
  | m :: rest =>
    match m.uid with
    | none =>
      let r := download_products dl rest
      (r.1, .warnMissingUid m :: r.2)
    | some u =>
      if u = "" then
        let r := download_products dl rest
        (r.1, .warnMissingUid m :: r.2)
      else
        match dl u with
        | .ok res =>
          let r := download_products dl rest
          (localPathOf res :: r.1, .infoDownloading m.title u :: r.2)
        | .error _ =>
          let r := download_products dl rest
          (r.1, .infoDownloading m.title u :: .errFailedDownload u :: r.2)

end SQ

namespace Scripts

/-!  Embedding of `src/scripts/sentinel_query.py`.  -/

/-- The loop body of `_month_limited_date_ranges` (lines 151–157), identical
to the original copy's. -/
def buildRanges (m1 m2 : Int) : List Int → Except String (List (String × String))
  | [] => .ok []
  | y :: ys =>
    match mkDate y m1 1 with
    | .error e => .error e
    | .ok s =>
      match mkDate y m2 31 with
      | .error e => .error e
      | .ok en =>
        match buildRanges m1 m2 ys with
        | .error e => .error e
        | .ok rest => .ok ((s.isoformat, en.isoformat) :: rest)

/-- `_month_limited_date_ranges(start_year, end_year, months)`
(src/scripts/sentinel_query.py lines 144–157). -/
def _month_limited_date_ranges (start_year end_year : Int) (months : Int × Int) :
    Except String (List (String × String)) :=
  buildRanges months.1 months.2 (intRange start_year (end_year + 1))

/-- The aggregation loop of `query_sentinel_products` (lines 192–204). -/
def collectResults (q : String × String → List (String × ProductMeta)) :
    List (String × String) → List ProductMeta
  | [] => []
  | r :: rs => (q r).map (fun p => { p.2 with uid := some p.1 }) ++ collectResults q rs

/-- `query_sentinel_products` (src/scripts/sentinel_query.py lines 164–209):
as in the original copy, but the month pair is a parameter (its Python default
is `(5, 8)`). -/
def query_sentinel_products (q : String × String → List (String × ProductMeta))
    (start_year end_year : Int) (months : Int × Int) : Except String (List ProductMeta) :=
  match _month_limited_date_ranges start_year end_year months with
  | .error e => .error e
  | .ok drs => rankEntries (collectResults q drs)

/-- `download_products` (src/scripts/sentinel_query.py lines 252–282),
identical to the original copy's. -/
def download_products (dl : String → Except String DownloadRes) :
    List ProductMeta → List (Option String) × List LogEvent
  | [] => ([], [])
  | m :: rest =>
    match m.uid with
    | none =>
      let r := download_products dl rest
      (r.1, .warnMissingUid m :: r.2)
    | some u =>
      if u = "" then
        let r := download_products dl rest
        (r.1, .warnMissingUid m :: r.2)
      else
        match dl u with
        | .ok res =>
          let r := download_products dl rest
          (localPathOf res :: r.1, .infoDownloading m.title u :: r.2)
        | .error _ =>
          let r := download_products dl rest
          (r.1, .infoDownloading m.title u :: .errFailedDownload u :: r.2)

end Scripts

/-- The spec's example entry `{id:"a", ts:None}`: no timestamp at all. -/
def exA : ProductMeta := { uid := some "a", beginposition := none, ingestiondate := none, title := none }

/-- The spec's example entry `{id:"b", ts:"2021-06-01"}`. -/
def exB : ProductMeta := { uid := some "b", beginposition := some "2021-06-01", ingestiondate := none, title := none }

/-- The spec's example entry `{id:"c", ts:"2020-06-01"}`. -/
def exC : ProductMeta := { uid := some "c", beginposition := some "2020-06-01", ingestiondate := none, title := none }

/-- A month is one of the 31-day months, i.e. `date(y, m, 31)` is
constructible for it.  This is the spec's validity constraint on the
end-month ("end-month has ≥31 days"). -/
def hasThirtyOneDays (m : Int) : Prop :=
  m = 1 ∨ m = 3 ∨ m = 5 ∨ m = 7 ∨ m = 8 ∨ m = 10 ∨ m = 12

/-- Modelled from the spec: a "valid month pair" as the spec's words define
it — both components are months and the end-month has at least 31 days
(§4.1's only stated input constraint). -/
def specValidMonths (p : Int × Int) : Prop :=
  1 ≤ p.1 ∧ p.1 ≤ 12 ∧ hasThirtyOneDays p.2

/-- Calendar order on dates (used to state "start ≤ end"; for valid dates it
coincides with the lexicographic order of their ISO strings). -/
def Date.le (a b : Date) : Prop :=
  a.year < b.year ∨ (a.year = b.year ∧
    (a.month < b.month ∨ (a.month = b.month ∧ a.day ≤ b.day)))

instance : DecidablePred hasThirtyOneDays := fun m =>
  inferInstanceAs (Decidable (m = 1 ∨ m = 3 ∨ m = 5 ∨ m = 7 ∨ m = 8 ∨ m = 10 ∨ m = 12))

instance (p : Int × Int) : Decidable (specValidMonths p) :=
  inferInstanceAs (Decidable (1 ≤ p.1 ∧ p.1 ≤ 12 ∧ hasThirtyOneDays p.2))

instance (a b : Date) : Decidable (Date.le a b) :=
  inferInstanceAs (Decidable (a.year < b.year ∨ (a.year = b.year ∧
    (a.month < b.month ∨ (a.month = b.month ∧ a.day ≤ b.day)))))

/-- A download oracle for concrete checks: fails for identifier `"bad"`,
succeeds with a dict carrying a path for any other identifier. -/
def dlDemo : String → Except String DownloadRes :=
  fun u => if u = "bad" then .error "network error" else .ok (.dict (some ("/dl/" ++ u)))

/-- A valid entry whose download succeeds. -/
def mGood1 : ProductMeta := { uid := some "u1", beginposition := some "2020-06-02", ingestiondate := none, title := some "S2A_1" }

/-- A second valid entry whose download succeeds. -/
def mGood2 : ProductMeta := { uid := some "u2", beginposition := some "2020-07-02", ingestiondate := none, title := some "S2A_2" }

/-- An entry whose download raises. -/
def mBad : ProductMeta := { uid := some "bad", beginposition := some "2020-08-02", ingestiondate := none, title := some "S2A_bad" }

/-- An entry with no identifier. -/
def mNoUid : ProductMeta := { uid := none, beginposition := some "2020-09-02", ingestiondate := none, title := some "S2A_nouid" }

/-- A catalog record as returned by the external query, before `"_uid"` is
attached. -/
def mPlain : ProductMeta := { uid := none, beginposition := some "2020-06-02", ingestiondate := none, title := some "T1" }

/-- A query oracle for concrete checks: every window returns one record under
identifier `"uid-1"`. -/
def qDemo : String × String → List (String × ProductMeta) := fun _ => [("uid-1", mPlain)]

/-- `mPlain` after `query_sentinel_products` attached its `"_uid"`. -/
def mTagged : ProductMeta := { mPlain with uid := some "uid-1" }

/-!  ## Order-theoretic facts about the Python string comparison  -/

theorem ltN_irrefl : ∀ a : List Nat, ltN a a = false
  | [] => rfl
  | a :: as => by simp [ltN, ltN_irrefl as]

theorem ltN_asymm : ∀ {a b : List Nat}, ltN a b = true → ltN b a = true → False
  | [], [], h1, _ => by simp [ltN] at h1
  | [], _ :: _, _, h2 => by simp [ltN] at h2
  | _ :: _, [], h1, _ => by simp [ltN] at h1
  | _ :: as, b :: bs, h1, h2 => by
    simp only [ltN] at h1 h2
    split at h1
    · rename_i heq
      subst heq
      rw [if_pos rfl] at h2
      exact ltN_asymm h1 h2
    · rename_i hne
      rw [if_neg (fun h => hne h.symm)] at h2
      simp only [decide_eq_true_eq] at h1 h2
      omega

theorem ltN_trans : ∀ {a b c : List Nat}, ltN a b = true → ltN b c = true → ltN a c = true
  | [], _ :: _, _ :: _, _, _ => rfl
  | a :: as, b :: bs, c :: cs, h1, h2 => by
    simp only [ltN] at h1 h2 ⊢
    by_cases hab : a = b
    · subst hab
      rw [if_pos rfl] at h1
      by_cases hbc : a = c
      · subst hbc
        rw [if_pos rfl] at h2 ⊢
        exact ltN_trans h1 h2
      · rwa [if_neg hbc] at h2 ⊢
    · rw [if_neg hab] at h1
      simp only [decide_eq_true_eq] at h1
      by_cases hbc : b = c
      · subst hbc
        rw [if_neg hab]
        simpa using h1
      · rw [if_neg hbc] at h2
        simp only [decide_eq_true_eq] at h2
        have hac : a ≠ c := by omega
        rw [if_neg hac]
        simp only [decide_eq_true_eq]
        omega

theorem ltN_trichot : ∀ a b : List Nat, ltN a b = true ∨ a = b ∨ ltN b a = true
  | [], [] => .inr (.inl rfl)
  | [], _ :: _ => .inl rfl
  | _ :: _, [] => .inr (.inr rfl)
  | a :: as, b :: bs => by
    by_cases hab : a = b
    · subst hab
      rcases ltN_trichot as bs with h | h | h
      · exact .inl (by simp [ltN, h])
      · exact .inr (.inl (by rw [h]))
      · exact .inr (.inr (by simp [ltN, h]))
    · rcases Nat.lt_trichotomy a b with h | h | h
      · exact .inl (by simp [ltN, hab, h])
      · exact absurd h hab
      · refine .inr (.inr ?_)
        simp only [ltN]
        rw [if_neg (fun hh => hab hh.symm)]
        simp [h]

theorem pyStrLe_refl (s : String) : pyStrLe s s = true := by
  simp [pyStrLe, pyStrLt, ltN_irrefl]

theorem pyStrLe_total (a b : String) : pyStrLe a b = true ∨ pyStrLe b a = true := by
  simp only [pyStrLe, pyStrLt, Bool.not_eq_true']
  cases h : ltN (codes b) (codes a) with
  | false => exact .inl rfl
  | true =>
    refine .inr ?_
    cases h2 : ltN (codes a) (codes b) with
    | false => rfl
    | true => exact (ltN_asymm h h2).elim

theorem pyStrLe_trans {a b c : String} (h1 : pyStrLe a b = true) (h2 : pyStrLe b c = true) :
    pyStrLe a c = true := by
  simp only [pyStrLe, pyStrLt, Bool.not_eq_true'] at h1 h2 ⊢
  cases hca : ltN (codes c) (codes a) with
  | false => rfl
  | true =>
    exfalso
    rcases ltN_trichot (codes b) (codes c) with hbc | hbc | hbc
    · have : ltN (codes b) (codes a) = true := ltN_trans hbc hca
      rw [h1] at this
      cases this
    · rw [← hbc] at hca
      rw [h1] at hca
      cases hca
    · rw [h2] at hbc
      cases hbc

theorem rankRel_total (a b : ProductMeta) : rankRel a b ∨ rankRel b a :=
  pyStrLe_total (keyD b) (keyD a)

theorem rankRel_trans {a b c : ProductMeta} (h1 : rankRel a b) (h2 : rankRel b c) :
    rankRel a c :=
  pyStrLe_trans h2 h1

theorem rankRel_of_keyD_eq {a b : ProductMeta} (h : keyD a = keyD b) : rankRel a b := by
  unfold rankRel
  rw [h]
  exact pyStrLe_refl _

/-!  ## Stability of the stable sort, phrased through `filter`  -/

theorem filter_orderedInsert_of_pos {α : Type} (r : α → α → Prop) [DecidableRel r]
    (p : α → Bool) (a : α) (ha : p a = true) (hr : ∀ b, p b = true → r a b) :
    ∀ s : List α, (s.orderedInsert r a).filter p = a :: s.filter p
  | [] => by simp [List.orderedInsert, ha]
  | b :: t => by
    simp only [List.orderedInsert]
    by_cases hab : r a b
    · rw [if_pos hab]
      simp [List.filter_cons, ha]
    · rw [if_neg hab]
      have hpb : p b = false := by
        cases hpb : p b
        · rfl
        · exact absurd (hr b hpb) hab
      simp [List.filter_cons, hpb, filter_orderedInsert_of_pos r p a ha hr t]

theorem filter_orderedInsert_of_neg {α : Type} (r : α → α → Prop) [DecidableRel r]
    (p : α → Bool) (a : α) (ha : p a = false) :
    ∀ s : List α, (s.orderedInsert r a).filter p = s.filter p
  | [] => by simp [List.orderedInsert, ha]
  | b :: t => by
    simp only [List.orderedInsert]
    by_cases hab : r a b
    · rw [if_pos hab]
      simp [List.filter_cons, ha]
    · rw [if_neg hab]
      cases hpb : p b
      · simp [List.filter_cons, hpb, filter_orderedInsert_of_neg r p a ha t]
      · simp [List.filter_cons, hpb, filter_orderedInsert_of_neg r p a ha t]

theorem filter_insertionSort {α : Type} (r : α → α → Prop) [DecidableRel r]
    (p : α → Bool) (hcl : ∀ a b, p a = true → p b = true → r a b) :
    ∀ l : List α, (l.insertionSort r).filter p = l.filter p
  | [] => rfl
  | a :: l => by
    simp only [List.insertionSort]
    cases hpa : p a
    · rw [filter_orderedInsert_of_neg r p a hpa, filter_insertionSort r p hcl l]
      simp [List.filter_cons, hpa]
    · rw [filter_orderedInsert_of_pos r p a hpa (fun b hb => hcl a b hpa hb),
        filter_insertionSort r p hcl l]
      simp [List.filter_cons, hpa]

/-!  ## Generic facts about the ranker  -/

theorem rankEntries_ok_mem {l ys : List ProductMeta} (h : rankEntries l = .ok ys) :
    ∀ m ∈ ys, m ∈ l := by
  unfold rankEntries at h
  by_cases hlen : l.length ≤ 1
  · rw [if_pos hlen] at h
    injection h with h
    subst h
    exact fun m hm => hm
  · rw [if_neg hlen] at h
    by_cases hall : l.all (fun m => (sortKeyOf m).isSome) = true
    · rw [if_pos hall] at h
      injection h with h
      subst h
      exact fun m hm => (List.mem_insertionSort rankRel).1 hm
    · rw [if_neg hall] at h
      exact Except.noConfusion h

/-!  ## Facts about the calendar model  -/

theorem daysInMonth_pos (y m : Int) : 1 ≤ daysInMonth y m := by
  unfold daysInMonth
  split_ifs <;> omega

theorem daysInMonth_of_31 (y m : Int) (h : hasThirtyOneDays m) : daysInMonth y m = 31 := by
  rcases h with rfl | rfl | rfl | rfl | rfl | rfl | rfl <;> simp [daysInMonth]

theorem daysInMonth_lt_31 (y m : Int) (h : m = 2 ∨ m = 4 ∨ m = 6 ∨ m = 9 ∨ m = 11) :
    daysInMonth y m < 31 := by
  rcases h with rfl | rfl | rfl | rfl | rfl <;> unfold daysInMonth <;> split_ifs <;> omega

theorem hasThirtyOneDays_bounds {m : Int} (h : hasThirtyOneDays m) : 1 ≤ m ∧ m ≤ 12 := by
  rcases h with rfl | rfl | rfl | rfl | rfl | rfl | rfl <;> omega

theorem mkDate_ok (y m d : Int) (hy1 : 1 ≤ y) (hy2 : y ≤ 9999) (hm1 : 1 ≤ m) (hm2 : m ≤ 12)
    (hd1 : 1 ≤ d) (hd2 : d ≤ daysInMonth y m) : mkDate y m d = .ok ⟨y, m, d⟩ := by
  unfold mkDate
  rw [if_neg (by omega), if_neg (by omega), if_neg (by omega)]

theorem mkDate_day31_error (y m : Int) (h : m = 2 ∨ m = 4 ∨ m = 6 ∨ m = 9 ∨ m = 11) :
    ∃ e, mkDate y m 31 = .error e := by
  have hlt := daysInMonth_lt_31 y m h
  unfold mkDate
  split_ifs with h1 h2 h3
  · exact ⟨_, rfl⟩
  · exact ⟨_, rfl⟩
  · exact ⟨_, rfl⟩
  · exact absurd (by omega : (31 : Int) < 1 ∨ daysInMonth y m < 31) h3

/-!  ## Facts about `intRange`  -/

theorem intRange_length (a b : Int) : (intRange a b).length = (b - a).toNat := by
  unfold intRange
  rw [List.length_map, List.length_range]

theorem intRange_getElem (a b : Int) (i : Nat) (h : i < (intRange a b).length) :
    (intRange a b)[i] = a + i := by
  unfold intRange at h ⊢
  rw [List.getElem_map, List.getElem_range]

theorem intRange_eq_nil (a b : Int) (h : b ≤ a) : intRange a b = [] := by
  have h0 : (b - a).toNat = 0 := by omega
  unfold intRange
  rw [h0]
  rfl

theorem intRange_cons (a b : Int) (h : a < b) : intRange a b = a :: intRange (a + 1) b := by
  unfold intRange
  have h1 : (b - a).toNat = (b - (a + 1)).toNat + 1 := by omega
  rw [h1, List.range_succ_eq_map, List.map_cons, List.map_map]
  refine congrArg₂ List.cons (by simp) (List.map_congr_left fun i _ => ?_)
  simp only [Function.comp_apply, Nat.succ_eq_add_one]
  push_cast
  ring

theorem mem_intRange {y a b : Int} (h : y ∈ intRange a b) : a ≤ y ∧ y < b := by
  simp only [intRange, List.mem_map, List.mem_range] at h
  obtain ⟨i, hi, rfl⟩ := h
  omega

/-!  ## The date-window loop on valid inputs  -/

theorem SQ.buildRanges_ok (m1 m2 : Int) (hm11 : 1 ≤ m1) (hm12 : m1 ≤ 12)
    (h31 : hasThirtyOneDays m2) :
    ∀ ys : List Int, (∀ y ∈ ys, 1 ≤ y ∧ y ≤ 9999) →
      SQ.buildRanges m1 m2 ys =
        .ok (ys.map fun y => ((Date.mk y m1 1).isoformat, (Date.mk y m2 31).isoformat)) := by
  intro ys
  induction ys with
  | nil => intro _; rfl
  | cons y ys ih =>
    intro hys
    have hy := hys y (List.mem_cons_self y ys)
    obtain ⟨hm21, hm22⟩ := hasThirtyOneDays_bounds h31
    have hs : mkDate y m1 1 = .ok ⟨y, m1, 1⟩ :=
      mkDate_ok y m1 1 hy.1 hy.2 hm11 hm12 (by omega)
        (by have := daysInMonth_pos y m1; omega)
    have he : mkDate y m2 31 = .ok ⟨y, m2, 31⟩ :=
      mkDate_ok y m2 31 hy.1 hy.2 hm21 hm22 (by omega)
        (le_of_eq (daysInMonth_of_31 y m2 h31).symm)
    simp only [SQ.buildRanges, hs, he,
      ih (fun z hz => hys z (List.mem_cons_of_mem y hz)), List.map_cons]

/-!  ## Facts about the download orchestrator  -/

theorem download_append (dl : String → Except String DownloadRes) :
    ∀ l1 l2 : List ProductMeta,
      SQ.download_products dl (l1 ++ l2) =
        ((SQ.download_products dl l1).1 ++ (SQ.download_products dl l2).1,
         (SQ.download_products dl l1).2 ++ (SQ.download_products dl l2).2) := by
  intro l1
  induction l1 with
  | nil => intro l2; simp [SQ.download_products]
  | cons m l1 ih =>
    intro l2
    cases hm : m.uid with
    | none => simp [SQ.download_products, hm, ih]
    | some u =>
      by_cases hu : u = ""
      · simp [SQ.download_products, hm, hu, ih]
      · cases hd : dl u with
        | ok res => simp [SQ.download_products, hm, hu, hd, ih]
        | error e => simp [SQ.download_products, hm, hu, hd, ih]

theorem download_failed_cons (dl : String → Except String DownloadRes) (x : ProductMeta)
    (u err : String) (hx : x.uid = some u) (hu : u ≠ "") (hf : dl u = .error err)
    (l : List ProductMeta) :
    SQ.download_products dl (x :: l) =
      ((SQ.download_products dl l).1,
       .infoDownloading x.title u :: .errFailedDownload u ::
         (SQ.download_products dl l).2) := by
  simp [SQ.download_products, hx, hu, hf]

theorem download_fst_filter (dl : String → Except String DownloadRes) :
    ∀ l : List ProductMeta,
      (SQ.download_products dl l).1 =
        (SQ.download_products dl (l.filter hasNonEmptyUid)).1 := by
  intro l
  induction l with
  | nil => rfl
  | cons m l ih =>
    cases hm : m.uid with
    | none =>
      have hfu : hasNonEmptyUid m = false := by simp [hasNonEmptyUid, hm]
      simp [SQ.download_products, hm, List.filter_cons, hfu, ih]
    | some u =>
      by_cases hu : u = ""
      · have hfu : hasNonEmptyUid m = false := by simp [hasNonEmptyUid, hm, hu]
        simp [SQ.download_products, hm, hu, List.filter_cons, hfu, ih]
      · have hfu : hasNonEmptyUid m = true := by simp [hasNonEmptyUid, hm, hu]
        cases hd : dl u with
        | ok res => simp [SQ.download_products, hm, hu, hd, List.filter_cons, hfu, ih]
        | error e => simp [SQ.download_products, hm, hu, hd, List.filter_cons, hfu, ih]

/-!  ## Provenance of aggregated query results  -/

theorem collectResults_mem {q : String × String → List (String × ProductMeta)} :
    ∀ {drs : List (String × String)} {m : ProductMeta}, m ∈ Scripts.collectResults q drs →
      ∃ r ∈ drs, ∃ (k : String) (m0 : ProductMeta),
        (k, m0) ∈ q r ∧ m = { m0 with uid := some k } := by
  intro drs
  induction drs with
  | nil =>
    intro m hm
    simp [Scripts.collectResults] at hm
  | cons r rs ih =>
    intro m hm
    rw [Scripts.collectResults] at hm
    rcases List.mem_append.1 hm with h | h
    · obtain ⟨⟨k, m0⟩, hq, rfl⟩ := List.mem_map.1 h
      exact ⟨r, List.mem_cons_self r rs, k, m0, hq, rfl⟩
    · obtain ⟨r2, hr2, k, m0, hq, heq⟩ := ih h
      exact ⟨r2, List.mem_cons_of_mem r hr2, k, m0, hq, heq⟩

/-!  ## The two file copies implement the same functions  -/

theorem buildRanges_copies_eq (m1 m2 : Int) :
    ∀ ys : List Int, SQ.buildRanges m1 m2 ys = Scripts.buildRanges m1 m2 ys := by
  intro ys
  induction ys with
  | nil => rfl
  | cons y ys ih =>
    cases h1 : mkDate y m1 1 with
    | error e => simp [SQ.buildRanges, Scripts.buildRanges, h1]
    | ok s =>
      cases h2 : mkDate y m2 31 with
      | error e => simp [SQ.buildRanges, Scripts.buildRanges, h1, h2]
      | ok en => simp [SQ.buildRanges, Scripts.buildRanges, h1, h2, ih]

theorem ranges_copies_eq (sy ey : Int) (months : Int × Int) :
    SQ._month_limited_date_ranges sy ey months =
      Scripts._month_limited_date_ranges sy ey months := by
  unfold SQ._month_limited_date_ranges Scripts._month_limited_date_ranges
  exact buildRanges_copies_eq months.1 months.2 _

theorem collectResults_copies_eq (q : String × String → List (String × ProductMeta)) :
    ∀ drs : List (String × String), SQ.collectResults q drs = Scripts.collectResults q drs := by
  intro drs
  induction drs with
  | nil => rfl
  | cons r rs ih => rw [SQ.collectResults, Scripts.collectResults, ih]

theorem download_copies_eq (dl : String → Except String DownloadRes) :
    ∀ l : List ProductMeta, SQ.download_products dl l = Scripts.download_products dl l := by
  intro l
  induction l with
  | nil => rfl
  | cons m l ih =>
    cases hm : m.uid with
    | none => simp [SQ.download_products, Scripts.download_products, hm, ih]
    | some u =>
      by_cases hu : u = ""
      · simp [SQ.download_products, Scripts.download_products, hm, hu, ih]
      · cases hd : dl u with
        | ok res => simp [SQ.download_products, Scripts.download_products, hm, hu, hd, ih]
        | error e => simp [SQ.download_products, Scripts.download_products, hm, hu, hd, ih]

/-!  ## Claim theorems  -/

/-- Claim C1, counterexample: on the spec's own example input
`[{id:"a",ts:None}, {id:"b",ts:"2021-06-01"}, {id:"c",ts:"2020-06-01"}]` the
Result Ranker raises `TypeError` (the `None` sort key is compared against a
string) instead of returning `[b, c, a]`; entries with no acquisition
timestamp do not sort to the end. -/
theorem c1_counterexample :
    rankEntries [exA, exB, exC] = .error "TypeError: unorderable types: NoneType and str" ∧
    rankEntries [exA, exB, exC] ≠ .ok [exB, exC, exA] := by decide

/-- Claim C1, amended: (1) on every collection in which each entry has an
acquisition timestamp, the Result Ranker succeeds and returns the entries
ordered by timestamp descending, ties keeping their original relative order
(a permutation of the input, sorted under `rankRel`, with each
equal-timestamp class preserved verbatim); (2) a collection of two or more
entries containing an entry with no timestamp makes the Ranker raise instead
of sorting that entry to the end. -/
theorem c1_ranker_amended :
    (∀ l : List ProductMeta, (∀ m ∈ l, (sortKeyOf m).isSome = true) →
      ∃ ys, rankEntries l = .ok ys ∧ ys.Perm l ∧ List.Sorted rankRel ys ∧
        ∀ k : String, ys.filter (fun m => sortKeyOf m == some k) =
          l.filter (fun m => sortKeyOf m == some k)) ∧
    (∀ l : List ProductMeta, 2 ≤ l.length → (∃ m ∈ l, sortKeyOf m = none) →
      ∃ e, rankEntries l = .error e) := by
  constructor
  · intro l h
    by_cases hlen : l.length ≤ 1
    · refine ⟨l, by rw [rankEntries, if_pos hlen], List.Perm.refl l, ?_, fun k => rfl⟩
      match l, hlen with
      | [], _ => exact List.sorted_nil
      | [a], _ => exact List.sorted_singleton a
    · have hall : l.all (fun m => (sortKeyOf m).isSome) = true :=
        List.all_eq_true.2 (fun m hm => h m hm)
      haveI : IsTotal ProductMeta rankRel := ⟨rankRel_total⟩
      haveI : IsTrans ProductMeta rankRel := ⟨fun _ _ _ h1 h2 => rankRel_trans h1 h2⟩
      refine ⟨l.insertionSort rankRel, by rw [rankEntries, if_neg hlen, if_pos hall],
        List.perm_insertionSort rankRel l, List.sorted_insertionSort rankRel l, fun k => ?_⟩
      refine filter_insertionSort rankRel _ (fun a b ha hb => ?_) l
      have ha2 : sortKeyOf a = some k := by simpa using ha
      have hb2 : sortKeyOf b = some k := by simpa using hb
      exact rankRel_of_keyD_eq (by unfold keyD; rw [ha2, hb2])
  · intro l hlen hnone
    have hall : ¬ l.all (fun m => (sortKeyOf m).isSome) = true := by
      intro hall
      obtain ⟨m, hm, hkey⟩ := hnone
      have := List.all_eq_true.1 hall m hm
      rw [hkey] at this
      cases this
    exact ⟨"TypeError: unorderable types: NoneType and str",
      by rw [rankEntries, if_neg (by omega), if_neg hall]⟩

/-- Claim C1, witness for the amended statement: a fully-timestamped pair is
ranked successfully, and the spec's example collection (which contains a
timestamp-less entry among three) raises. -/
theorem c1_ranker_amended_witness :
    (∃ ys, rankEntries [exB, exC] = .ok ys ∧ ys.Perm [exB, exC] ∧ List.Sorted rankRel ys ∧
      ∀ k : String, ys.filter (fun m => sortKeyOf m == some k) =
        [exB, exC].filter (fun m => sortKeyOf m == some k)) ∧
    (∃ e, rankEntries [exA, exB, exC] = .error e) :=
  ⟨c1_ranker_amended.1 [exB, exC] (by decide),
   c1_ranker_amended.2 [exA, exB, exC] (by decide) ⟨exA, by decide, rfl⟩⟩

/-- Claim C2, counterexample: with `start_year > end_year` the year loop is
empty, so even for a month pair whose end-month has fewer than 31 days
(`months=(5, 6)`) the Date-Window Builder returns successfully (an empty
window list) rather than failing with a range-construction error. -/
theorem c2_counterexample :
    SQ._month_limited_date_ranges 2021 2020 (5, 6) = .ok [] ∧
    ∀ e, SQ._month_limited_date_ranges 2021 2020 (5, 6) ≠ .error e := by
  have h : SQ._month_limited_date_ranges 2021 2020 (5, 6) = .ok [] := by decide
  exact ⟨h, fun e hc => by rw [h] at hc; exact Except.noConfusion hc⟩

/-- Claim C2, amended: for every `start_year ≤ end_year` (so that at least one
year is processed) and every month pair whose end-month is a real month with
fewer than 31 days (2, 4, 6, 9 or 11), the Date-Window Builder raises a
range-construction error (`date(y, end_month, 31)` is invalid) rather than
returning a window list. -/
theorem c2_builder_error_amended (sy ey m1 m2 : Int) (hy : sy ≤ ey)
    (h : m2 = 2 ∨ m2 = 4 ∨ m2 = 6 ∨ m2 = 9 ∨ m2 = 11) :
    ∃ e, SQ._month_limited_date_ranges sy ey (m1, m2) = .error e := by
  unfold SQ._month_limited_date_ranges
  rw [intRange_cons sy (ey + 1) (by omega)]
  cases h1 : mkDate sy m1 1 with
  | error e => exact ⟨e, by simp [SQ.buildRanges, h1]⟩
  | ok s =>
    obtain ⟨e2, h2⟩ := mkDate_day31_error sy m2 h
    exact ⟨e2, by simp [SQ.buildRanges, h1, h2]⟩

/-- Claim C2, witness: `start_year=2020, end_year=2021, months=(5, 6)` raises. -/
theorem c2_builder_error_amended_witness :
    ∃ e, SQ._month_limited_date_ranges 2020 2021 (5, 6) = .error e :=
  c2_builder_error_amended 2020 2021 5 6 (by decide) (.inr (.inr (.inl rfl)))

/-- Claim C3, counterexample.  Part 1: `months=(8, 5)` is a valid month pair
under the spec's own input constraint (both are months, the end-month May has
31 days), `2020 ≤ 2020`, yet the single produced window runs from
`2020-08-01` to `2020-05-31`, whose start is after its end.  Part 2: for
`startYear = endYear = 0` (and perfectly valid months `(5, 8)`) the builder
raises (`date` year out of range) instead of returning one window. -/
theorem c3_counterexample :
    (specValidMonths (8, 5) ∧
      SQ._month_limited_date_ranges 2020 2020 (8, 5) = .ok [("2020-08-01", "2020-05-31")] ∧
      ¬ Date.le ⟨2020, 8, 1⟩ ⟨2020, 5, 31⟩ ∧
      pyStrLe "2020-08-01" "2020-05-31" = false) ∧
    (specValidMonths (5, 8) ∧
      SQ._month_limited_date_ranges 0 0 (5, 8) = .error "year out of range") := by decide

/-- Claim C3, amended: for every `startYear ≤ endYear` with both years in
`date`'s representable range 1..9999, and every month pair with
`start-month ≤ end-month` and a 31-day end-month, the Date-Window Builder
returns exactly `endYear − startYear + 1` windows, the `i`-th window lying in
year `startYear + i` (so years ascend, one window per year) with its start on
the first day of the start-month and not after its end. -/
theorem c3_builder_windows_amended (sy ey m1 m2 : Int)
    (hsy : 1 ≤ sy) (hey : ey ≤ 9999) (hy : sy ≤ ey)
    (hm1 : 1 ≤ m1) (hm12 : m1 ≤ m2) (h31 : hasThirtyOneDays m2) :
    ∃ l, SQ._month_limited_date_ranges sy ey (m1, m2) = .ok l ∧
      l.length = (ey - sy + 1).toNat ∧
      ∀ (i : Nat) (hi : i < l.length),
        l.get ⟨i, hi⟩ =
          ((Date.mk (sy + i) m1 1).isoformat, (Date.mk (sy + i) m2 31).isoformat) ∧
        Date.le ⟨sy + i, m1, 1⟩ ⟨sy + i, m2, 31⟩ := by
  obtain ⟨hm21, hm22⟩ := hasThirtyOneDays_bounds h31
  have hok := SQ.buildRanges_ok m1 m2 hm1 (by omega) h31 (intRange sy (ey + 1))
    (fun y hy2 => by have := mem_intRange hy2; omega)
  refine ⟨_, by unfold SQ._month_limited_date_ranges; exact hok, ?_, ?_⟩
  · rw [List.length_map, intRange_length]
    congr 1
    omega
  · intro i hi
    have hi2 : i < (intRange sy (ey + 1)).length := by
      rwa [List.length_map] at hi
    constructor
    · rw [List.get_eq_getElem, List.getElem_map, intRange_getElem]
    · have hle : m1 < m2 ∨ (m1 = m2 ∧ (1 : Int) ≤ 31) := by omega
      exact .inr ⟨rfl, hle.imp id (fun hh => ⟨hh.1, hh.2⟩)⟩

/-- Claim C3, witness for the amended statement, at the spec's example input
`startYear=2019, endYear=2021, months=(5, 8)`. -/
theorem c3_builder_windows_amended_witness :
    ∃ l, SQ._month_limited_date_ranges 2019 2021 (5, 8) = .ok l ∧
      l.length = ((2021 : Int) - 2019 + 1).toNat ∧
      ∀ (i : Nat) (hi : i < l.length),
        l.get ⟨i, hi⟩ =
          ((Date.mk (2019 + i) 5 1).isoformat, (Date.mk (2019 + i) 8 31).isoformat) ∧
        Date.le ⟨2019 + i, 5, 1⟩ ⟨2019 + i, 8, 31⟩ :=
  c3_builder_windows_amended 2019 2021 5 8 (by decide) (by decide) (by decide)
    (by decide) (by decide) (by decide)

/-- Claim C4: on the Date-Window Builder's domain (years in 1..9999 with
`startYear ≤ endYear`, a real start-month, a 31-day end-month — the inputs for
which windows are produced at all), each year's window starts on the first
day of the start-month and ends on day `daysInMonth y end-month`, which for
these end-months is exactly the last representable day (31); and concretely
`startYear=2019, endYear=2021, months=(5, 8)` yields exactly
`[(2019-05-01, 2019-08-31), (2020-05-01, 2020-08-31), (2021-05-01, 2021-08-31)]`. -/
theorem c4_window_endpoints (sy ey m1 m2 : Int)
    (hsy : 1 ≤ sy) (hey : ey ≤ 9999) (hy : sy ≤ ey)
    (hm1 : 1 ≤ m1) (hm1b : m1 ≤ 12) (h31 : hasThirtyOneDays m2) :
    (SQ._month_limited_date_ranges sy ey (m1, m2) =
        .ok ((intRange sy (ey + 1)).map fun y =>
          ((Date.mk y m1 1).isoformat, (Date.mk y m2 (daysInMonth y m2)).isoformat)) ∧
      ∀ y : Int, daysInMonth y m2 = 31) ∧
    SQ._month_limited_date_ranges 2019 2021 (5, 8) =
      .ok [("2019-05-01", "2019-08-31"), ("2020-05-01", "2020-08-31"),
           ("2021-05-01", "2021-08-31")] := by
  refine ⟨⟨?_, fun y => daysInMonth_of_31 y m2 h31⟩, by decide⟩
  unfold SQ._month_limited_date_ranges
  rw [SQ.buildRanges_ok m1 m2 hm1 hm1b h31 (intRange sy (ey + 1))
    (fun y hy2 => by have := mem_intRange hy2; omega)]
  exact congrArg Except.ok (List.map_congr_left fun y _ => by
    rw [daysInMonth_of_31 y m2 h31])

/-- Claim C4, witness at the spec's example input. -/
theorem c4_window_endpoints_witness :
    (SQ._month_limited_date_ranges 2019 2021 (5, 8) =
        .ok ((intRange 2019 (2021 + 1)).map fun y =>
          ((Date.mk y 5 1).isoformat, (Date.mk y 8 (daysInMonth y 8)).isoformat)) ∧
      ∀ y : Int, daysInMonth y 8 = 31) ∧
    SQ._month_limited_date_ranges 2019 2021 (5, 8) =
      .ok [("2019-05-01", "2019-08-31"), ("2020-05-01", "2020-08-31"),
           ("2021-05-01", "2021-08-31")] :=
  c4_window_endpoints 2019 2021 5 8 (by decide) (by decide) (by decide)
    (by decide) (by decide) (by decide)

/-- Claim C5: a download that raises for entry `x` (the oracle returns an
error for `x`'s identifier) is caught and logged, and the batch is not
aborted: the full result on `l1 ++ [x] ++ l2` has as its path sequence
exactly the paths for `l1` followed by the paths for `l2` (so every later
entry is still processed and the result excludes `x` only, in processing
order — the paths equal those of the batch without `x`), and as its log the
log for `l1`, then the attempt and failure records for `x`, then the log for
`l2`; in particular the failure is logged. -/
theorem c5_download_continues (dl : String → Except String DownloadRes)
    (l1 l2 : List ProductMeta) (x : ProductMeta) (u err : String)
    (hx : x.uid = some u) (hu : u ≠ "") (hf : dl u = .error err) :
    SQ.download_products dl (l1 ++ x :: l2) =
      ((SQ.download_products dl l1).1 ++ (SQ.download_products dl l2).1,
       (SQ.download_products dl l1).2 ++
         .infoDownloading x.title u :: .errFailedDownload u ::
           (SQ.download_products dl l2).2) ∧
    (SQ.download_products dl (l1 ++ x :: l2)).1 =
      (SQ.download_products dl (l1 ++ l2)).1 ∧
    LogEvent.errFailedDownload u ∈ (SQ.download_products dl (l1 ++ x :: l2)).2 := by
  have h1 : SQ.download_products dl (l1 ++ x :: l2) =
      ((SQ.download_products dl l1).1 ++ (SQ.download_products dl l2).1,
       (SQ.download_products dl l1).2 ++
         .infoDownloading x.title u :: .errFailedDownload u ::
           (SQ.download_products dl l2).2) := by
    rw [download_append dl l1 (x :: l2),
      download_failed_cons dl x u err hx hu hf l2]
  refine ⟨h1, ?_, ?_⟩
  · rw [h1, download_append dl l1 l2]
  · rw [h1]
    exact List.mem_append_right _
      (List.mem_cons_of_mem _ (List.mem_cons_self _ _))

/-- Claim C5, witness: with a concrete batch `[good, bad, good]` whose middle
entry's download raises, the result is the two successful paths, the failure
is logged between the surrounding entries' logs, and the paths equal those of
the batch without the failing entry. -/
theorem c5_download_continues_witness :
    SQ.download_products dlDemo ([mGood1] ++ mBad :: [mGood2]) =
      ((SQ.download_products dlDemo [mGood1]).1 ++ (SQ.download_products dlDemo [mGood2]).1,
       (SQ.download_products dlDemo [mGood1]).2 ++
         .infoDownloading mBad.title "bad" :: .errFailedDownload "bad" ::
           (SQ.download_products dlDemo [mGood2]).2) ∧
    (SQ.download_products dlDemo ([mGood1] ++ mBad :: [mGood2])).1 =
      (SQ.download_products dlDemo ([mGood1] ++ [mGood2])).1 ∧
    LogEvent.errFailedDownload "bad" ∈
      (SQ.download_products dlDemo ([mGood1] ++ mBad :: [mGood2])).2 :=
  c5_download_continues dlDemo [mGood1] [mGood2] mBad "bad" "network error"
    rfl (by decide) (by decide)

/-- Claim C6: the Download Orchestrator emits results only for entries whose
identifier is present and non-empty — its path output on any batch equals its
output on the batch restricted to such entries — and on the concrete batch of
one identifier-less entry and one valid entry it returns exactly one path
(the valid entry's) and logs exactly one missing-identifier skip. -/
theorem c6_uid_required :
    (∀ (dl : String → Except String DownloadRes) (l : List ProductMeta),
        (SQ.download_products dl l).1 =
          (SQ.download_products dl (l.filter hasNonEmptyUid)).1) ∧
    SQ.download_products dlDemo [mNoUid, mGood1] =
      ([some "/dl/u1"], [.warnMissingUid mNoUid, .infoDownloading (some "S2A_1") "u1"]) :=
  ⟨fun dl l => download_fst_filter dl l, by decide⟩

/-- Claim C7: the Result Ranker is idempotent — whenever ranking a collection
succeeds, ranking the ranked sequence returns it unchanged. -/
theorem c7_ranker_idempotent (l ys : List ProductMeta) (h : rankEntries l = .ok ys) :
    rankEntries ys = .ok ys := by
  unfold rankEntries at h
  by_cases hlen : l.length ≤ 1
  · rw [if_pos hlen] at h
    injection h with h
    subst h
    rw [rankEntries, if_pos hlen]
  · rw [if_neg hlen] at h
    by_cases hall : l.all (fun m => (sortKeyOf m).isSome) = true
    · rw [if_pos hall] at h
      injection h with h
      subst h
      haveI : IsTotal ProductMeta rankRel := ⟨rankRel_total⟩
      haveI : IsTrans ProductMeta rankRel := ⟨fun _ _ _ h1 h2 => rankRel_trans h1 h2⟩
      have hlen2 : ¬ (l.insertionSort rankRel).length ≤ 1 := by
        rw [List.length_insertionSort]
        exact hlen
      have hall2 : (l.insertionSort rankRel).all (fun m => (sortKeyOf m).isSome) = true := by
        rw [List.all_eq_true] at hall ⊢
        exact fun m hm => hall m ((List.mem_insertionSort rankRel).1 hm)
      rw [rankEntries, if_neg hlen2, if_pos hall2,
        List.Sorted.insertionSort_eq (List.sorted_insertionSort rankRel l)]
    · rw [if_neg hall] at h
      exact Except.noConfusion h

/-- Claim C7, witness: ranking `[c, b]` gives `[b, c]`, and ranking `[b, c]`
again leaves it unchanged. -/
theorem c7_ranker_idempotent_witness : rankEntries [exB, exC] = .ok [exB, exC] :=
  c7_ranker_idempotent [exC, exB] [exB, exC] (by decide)

/-- Claim C8: every record in a successful result of `query_sentinel_products`
was returned by the external query for one of the built date windows under
some catalog identifier `k`, and is that record with its `"_uid"` key set to
`k`; in particular its identifier field is present when it reaches the
download step. -/
theorem c8_query_sets_uid (q : String × String → List (String × ProductMeta))
    (sy ey : Int) (months : Int × Int) (res : List ProductMeta)
    (h : Scripts.query_sentinel_products q sy ey months = .ok res) :
    ∀ m ∈ res, m.uid.isSome = true ∧
      ∃ (k : String) (m0 : ProductMeta) (drs : List (String × String)) (r : String × String),
        Scripts._month_limited_date_ranges sy ey months = .ok drs ∧ r ∈ drs ∧
        (k, m0) ∈ q r ∧ m = { m0 with uid := some k } := by
  intro m hm
  unfold Scripts.query_sentinel_products at h
  cases hdr : Scripts._month_limited_date_ranges sy ey months with
  | error e =>
    rw [hdr] at h
    exact Except.noConfusion h
  | ok drs =>
    rw [hdr] at h
    have hmem : m ∈ Scripts.collectResults q drs := rankEntries_ok_mem h m hm
    obtain ⟨r, hr, k, m0, hkm, rfl⟩ := collectResults_mem hmem
    exact ⟨rfl, k, m0, drs, r, rfl, hr, hkm, rfl⟩

/-- Claim C8, witness: a concrete one-window query whose oracle returns one
record under identifier `"uid-1"`; the returned record carries that
identifier. -/
theorem c8_query_sets_uid_witness :
    mTagged.uid.isSome = true ∧
      ∃ (k : String) (m0 : ProductMeta) (drs : List (String × String)) (r : String × String),
        Scripts._month_limited_date_ranges 2020 2020 (5, 8) = .ok drs ∧ r ∈ drs ∧
        (k, m0) ∈ qDemo r ∧ mTagged = { m0 with uid := some k } :=
  c8_query_sets_uid qDemo 2020 2020 (5, 8) [mTagged] (by decide) mTagged (by decide)

/-- Claim C9: with `start_year > end_year` the year loop is empty, so the
Date-Window Builder returns the empty window list without error (for every
month pair, in both copies), and `query_sentinel_products` returns the empty
result list for every query oracle — the result does not depend on the
oracle, as no window exists to query. -/
theorem c9_empty_year_range (sy ey : Int) (h : ey < sy) :
    (∀ months : Int × Int, SQ._month_limited_date_ranges sy ey months = .ok []) ∧
    (∀ months : Int × Int, Scripts._month_limited_date_ranges sy ey months = .ok []) ∧
    (∀ q, SQ.query_sentinel_products q sy ey = .ok []) ∧
    (∀ q months, Scripts.query_sentinel_products q sy ey months = .ok []) := by
  have hnil : intRange sy (ey + 1) = [] := intRange_eq_nil _ _ (by omega)
  have hr : ∀ months : Int × Int, SQ._month_limited_date_ranges sy ey months = .ok [] := by
    intro months
    unfold SQ._month_limited_date_ranges
    rw [hnil]
    rfl
  have hr2 : ∀ months : Int × Int, Scripts._month_limited_date_ranges sy ey months = .ok [] := by
    intro months
    unfold Scripts._month_limited_date_ranges
    rw [hnil]
    rfl
  refine ⟨hr, hr2, fun q => ?_, fun q months => ?_⟩
  · unfold SQ.query_sentinel_products
    rw [hr (5, 8)]
    rfl
  · unfold Scripts.query_sentinel_products
    rw [hr2 months]
    rfl

/-- Claim C9, witness at `start_year=2021 > end_year=2020`. -/
theorem c9_empty_year_range_witness :
    (∀ months : Int × Int, SQ._month_limited_date_ranges 2021 2020 months = .ok []) ∧
    (∀ months : Int × Int, Scripts._month_limited_date_ranges 2021 2020 months = .ok []) ∧
    (∀ q, SQ.query_sentinel_products q 2021 2020 = .ok []) ∧
    (∀ q months, Scripts.query_sentinel_products q 2021 2020 months = .ok []) :=
  c9_empty_year_range 2021 2020 (by decide)

/-- Claim C10: the two source copies implement the same core:
`_month_limited_date_ranges` and `download_products` agree on every input
across the two files, and the scripts copy's `query_sentinel_products` at its
default `months=(5, 8)` coincides with the original copy's. -/
theorem c10_copies_equivalent :
    (∀ (sy ey : Int) (months : Int × Int),
        SQ._month_limited_date_ranges sy ey months =
          Scripts._month_limited_date_ranges sy ey months) ∧
    (∀ (dl : String → Except String DownloadRes) (l : List ProductMeta),
        SQ.download_products dl l = Scripts.download_products dl l) ∧
    (∀ (q : String × String → List (String × ProductMeta)) (sy ey : Int),
        Scripts.query_sentinel_products q sy ey (5, 8) =
          SQ.query_sentinel_products q sy ey) := by
  refine ⟨fun sy ey months => ranges_copies_eq sy ey months,
    fun dl l => download_copies_eq dl l, fun q sy ey => ?_⟩
  unfold SQ.query_sentinel_products Scripts.query_sentinel_products
  rw [← ranges_copies_eq sy ey (5, 8)]
  cases hdr : SQ._month_limited_date_ranges sy ey (5, 8) with
  | error e => rfl
  | ok drs =>
    show rankEntries (Scripts.collectResults q drs) = rankEntries (SQ.collectResults q drs)
    rw [collectResults_copies_eq q drs]
